import Mathlib

/-!
Verification of the node-local volume lifecycle manager in `pkg/volume/volume.go`
of the kubernetes repository snapshot.

The Go code is shallowly embedded:

* Pure path computation (`path.Join`, `GetPath`, `makeGlobalPDName`) becomes pure
  Lean functions over `String`.
* The local filesystem is a set of existing directory paths (`FS`), with the
  `os` package operations (`Stat`, `MkdirAll`, `RemoveAll`, `Rename`,
  `ioutil.TempDir`) given their documented semantics as state transformers.
  Failures of the OS calls that the Go code checks are injected through an
  environment record (`Env`), as are the results of the two injected external
  capabilities (`gcePersistentDiskUtil` for attach/detach and `mounter` for
  mount/unmount/refcount), which are interfaces whose implementations live
  outside this package.
* Every effectful operation additionally returns the list of external calls it
  performed, in order (`Event`), so that claims such as "DetachDisk is called
  if and only if ..." are statements about the trace.
-/

namespace KubeVolume

/-- Splits a character list at slash characters, accumulating the current
segment in reverse.  Structural-recursion core of `splitSlash`. -/
def splitSlashAux : List Char → List Char → List String
  | [], cur => [String.mk cur.reverse]
  | c :: rest, cur =>
    if c = '/' then String.mk cur.reverse :: splitSlashAux rest []
    else splitSlashAux rest (c :: cur)

/-- Model of Go `strings.Split(p, "/")` (the empty string splits to one empty
segment, as in Go). -/
def splitSlash (p : String) : List String :=
  splitSlashAux p.data []

/-- Model of Go `path.Join`: empty elements are skipped and the remaining ones
joined with a single slash.  Go additionally runs `path.Clean` on the result;
that normalization is the identity on the already-clean slash-free segments
this package joins, and is not modelled. -/
def pathJoin : List String → String
  | [] => ""
  | a :: rest =>
    let r := pathJoin rest
    if a = "" then r
    else if r = "" then a
    else a ++ "/" ++ r

/-- Model of Go `path.Dir` for the slash-joined paths used in this package:
everything before the final slash, `"."` when there is no slash, `"/"` for a
path of the form `/name` (the `path.Clean` normalization is not modelled). -/
def pathDir (p : String) : String :=
  let segs := splitSlash p
  if segs.length ≤ 1 then "."
  else
    let d := pathJoin segs.dropLast
    if d = "" then "/" else d

/-- Model of Go `path.Base` for the paths used in this package: the last
non-empty slash-separated segment, `"."` for the empty path, `"/"` for a path
consisting only of slashes. -/
def pathBase (p : String) : String :=
  let segs := (splitSlash p).filter (fun s => s ≠ "")
  match segs.getLast? with
  | some s => s
  | none => if p = "" then "." else "/"

/-- All the slash-separated ancestor prefixes of a path, shortest first, the
directories `os.MkdirAll` creates on the way to `p`. -/
def pathAncestors (p : String) : List String :=
  let segs := splitSlash p
  (List.range segs.length).map (fun i => pathJoin (segs.take (i + 1)))

/-- The local filesystem state: the set (as a duplicate-free-by-construction
list) of directory paths that currently exist. -/
structure FS where
  dirs : List String
  deriving DecidableEq, Repr

/-- Set-like insertion used by the filesystem model. -/
def listInsert (acc : List String) (q : String) : List String :=
  if q ∈ acc then acc else acc ++ [q]

/-- Model of `os.MkdirAll(p, perm)`: creates `p` and every missing ancestor. -/
def fsMkdirAll (fs : FS) (p : String) : FS :=
  ⟨(pathAncestors p ++ [p]).foldl listInsert fs.dirs⟩

/-- Model of `os.RemoveAll(p)`: removes `p` and everything below it. -/
def fsRemoveAll (fs : FS) (p : String) : FS :=
  ⟨fs.dirs.filter (fun q => !(q == p || (p ++ "/").data.isPrefixOf q.data))⟩

/-- Rebases one existing path from `oldPath` to `newPath` (helper of
`fsRename`). -/
def rebasePath (oldPath newPath q : String) : String :=
  if q = oldPath then newPath
  else if (oldPath ++ "/").data.isPrefixOf q.data then
    newPath ++ "/" ++ String.mk (q.data.drop (oldPath.data.length + 1))
  else q

/-- Model of `os.Rename(oldPath, newPath)` on directories: every path at or
below `oldPath` moves below `newPath`. -/
def fsRename (fs : FS) (oldPath newPath : String) : FS :=
  ⟨fs.dirs.map (rebasePath oldPath newPath)⟩

/-- One external call performed by a volume operation, with the arguments the
Go code passes.  `statDir` records an `os.Stat` existence probe, `refCountOp`
records the path of the volume handed to `mounter.RefCount`, and
`detachDiskOp` records the `PDName` of the disk and the device path handed to
`gcePersistentDiskUtil.DetachDisk`. -/
inductive Event where
  | statDir (p : String)
  | attachDiskOp (pdName : String)
  | detachDiskOp (pdName : String) (devicePath : String)
  | mountOp (source : String) (target : String) (fstype : String) (flags : Nat) (data : String)
  | unmountOp (target : String) (flags : Nat)
  | refCountOp (p : String)
  | mkdirAllOp (p : String) (mode : Nat)
  | removeAllOp (p : String)
  | tempDirOp (dir : String) (pat : String)
  | renameOp (oldPath : String) (newPath : String)
  deriving DecidableEq, Repr

/-- Environment for one operation: the outcomes of the injected external
capabilities (`gcePersistentDiskUtil`, `mounter`), plus injected failures for
the fallible `os`/`ioutil` calls whose errors the Go code checks, and the
random suffix `ioutil.TempDir` appends to its directory-name pattern. -/
structure Env where
  attachDiskRes : Except String Unit
  detachDiskRes : Except String Unit
  mountRes : Except String Unit
  unmountRes : Except String Unit
  refCountRes : Except String (String × Int)
  mkdirAllErr : Option String
  removeAllErr : Option String
  tempDirErr : Option String
  renameErr : Option String
  tempDirSuffix : String
  deriving Repr

/-- A benign environment: every external call succeeds; `RefCount` reports
device `"/dev/sdb"` with `n` references. -/
def okEnv (n : Int) : Env :=
  { attachDiskRes := .ok ()
    detachDiskRes := .ok ()
    mountRes := .ok ()
    unmountRes := .ok ()
    refCountRes := .ok ("/dev/sdb", n)
    mkdirAllErr := none
    removeAllErr := none
    tempDirErr := none
    renameErr := none
    tempDirSuffix := "123456" }

/-- Result of one effectful volume operation: the Go return value, the
filesystem afterwards, and the ordered trace of calls performed. -/
structure OpResult (α : Type) where
  res : Except String α
  fs : FS
  trace : List Event
  deriving Repr

instance {ε α : Type} [DecidableEq ε] [DecidableEq α] : DecidableEq (Except ε α) := fun x y =>
  match x, y with
  | .ok a, .ok b => decidable_of_iff (a = b) (by simp)
  | .error a, .error b => decidable_of_iff (a = b) (by simp)
  | .ok _, .error _ => isFalse (by simp)
  | .error _, .ok _ => isFalse (by simp)

instance {α : Type} [DecidableEq α] : DecidableEq (OpResult α) := fun a b =>
  decidable_of_iff (a.res = b.res ∧ a.fs = b.fs ∧ a.trace = b.trace)
    (by cases a; cases b; simp)

/-- `MS_BIND` of the OS mount wrapper.  Modelled from the spec: the constant is
declared in the mount-syscall wrapper outside `src/`; the spec only requires a
distinct "bind" mount flag (the Linux value is used). -/
def MOUNT_MS_BIND : Nat := 4096

/-- `MS_RDONLY` of the OS mount wrapper.  Modelled from the spec: the constant
is declared in the mount-syscall wrapper outside `src/`; the spec only requires
a distinct "read-only" mount flag (the Linux value is used). -/
def MOUNT_MS_RDONLY : Nat := 1

/-- `HostDirectory` of `volume.go`: a bare host directory mount, holding only
the caller-supplied path. -/
structure HostDirectory where
  Path : String
  deriving DecidableEq, Repr

/-- `HostDirectory.GetPath` of `volume.go`. -/
def HostDirectory.GetPath (hostVol : HostDirectory) : String :=
  hostVol.Path

/-- `HostDirectory.SetUp` of `volume.go`: returns `nil` and performs nothing. -/
def HostDirectory.SetUp (_hostVol : HostDirectory) (fs : FS) (_env : Env) : OpResult Unit :=
  ⟨.ok (), fs, []⟩

/-- `EmptyDirectory` of `volume.go`. -/
structure EmptyDirectory where
  Name : String
  PodID : String
  RootDir : String
  deriving DecidableEq, Repr

/-- `EmptyDirectory.GetPath` of `volume.go`:
`path.Join(RootDir, PodID, "volumes", "empty", Name)`. -/
def EmptyDirectory.GetPath (emptyDir : EmptyDirectory) : String :=
  pathJoin [emptyDir.RootDir, emptyDir.PodID, "volumes", "empty", emptyDir.Name]

/-- `EmptyDirectory.SetUp` of `volume.go`: `os.MkdirAll(GetPath(), 0750)`,
propagating its error. -/
def EmptyDirectory.SetUp (emptyDir : EmptyDirectory) (fs : FS) (env : Env) : OpResult Unit :=
  let p := emptyDir.GetPath
  match env.mkdirAllErr with
  | some e => ⟨.error e, fs, [.mkdirAllOp p 0o750]⟩
  | none => ⟨.ok (), fsMkdirAll fs p, [.mkdirAllOp p 0o750]⟩

/-- `renameDirectory` of `volume.go`: `ioutil.TempDir(path.Dir(oldPath),
path.Base(oldPath) + ".deleting~")` followed by `os.Rename(oldPath, newPath)`.
`ioutil.TempDir` fails when its directory argument does not exist (with an
injectable further failure), otherwise creates and returns the fresh directory
`dir/pattern+suffix`; `os.Rename` fails when `oldPath` does not exist (with an
injectable further failure). -/
def renameDirectory (fs : FS) (env : Env) (oldPath : String) : OpResult String :=
  let name := pathBase oldPath
  let dir := pathDir oldPath
  let pat := name ++ ".deleting~"
  if ¬ dir ∈ fs.dirs then
    ⟨.error ("no such file or directory: " ++ dir), fs, [.tempDirOp dir pat]⟩
  else
    match env.tempDirErr with
    | some e => ⟨.error e, fs, [.tempDirOp dir pat]⟩
    | none =>
      let newPath := dir ++ "/" ++ pat ++ env.tempDirSuffix
      let fs1 := fsMkdirAll fs newPath
      if ¬ oldPath ∈ fs1.dirs then
        ⟨.error ("no such file or directory: " ++ oldPath), fs1,
          [.tempDirOp dir pat, .renameOp oldPath newPath]⟩
      else
        match env.renameErr with
        | some e => ⟨.error e, fs1, [.tempDirOp dir pat, .renameOp oldPath newPath]⟩
        | none =>
          ⟨.ok newPath, fsRename fs1 oldPath newPath,
            [.tempDirOp dir pat, .renameOp oldPath newPath]⟩

/-- `EmptyDirectory.TearDown` of `volume.go`: `renameDirectory(GetPath())`
then `os.RemoveAll(tmpDir)`, propagating either error. -/
def EmptyDirectory.TearDown (emptyDir : EmptyDirectory) (fs : FS) (env : Env) : OpResult Unit :=
  match renameDirectory fs env emptyDir.GetPath with
  | ⟨.error e, fs1, tr⟩ => ⟨.error e, fs1, tr⟩
  | ⟨.ok tmpDir, fs1, tr⟩ =>
    match env.removeAllErr with
    | some e => ⟨.error e, fs1, tr ++ [.removeAllOp tmpDir]⟩
    | none => ⟨.ok (), fsRemoveAll fs1 tmpDir, tr ++ [.removeAllOp tmpDir]⟩

/-- `GCEPersistentDisk` of `volume.go`.  The two injected interface fields
(`util : gcePersistentDiskUtil` and `mounter : mounter`) carry no data; their
behaviour is supplied per call through `Env`. -/
structure GCEPersistentDisk where
  Name : String
  PodID : String
  RootDir : String
  PDName : String
  FSType : String
  Partition : String
  ReadOnly : Bool
  deriving DecidableEq, Repr

/-- `GCEPersistentDisk.GetPath` of `volume.go`:
`path.Join(RootDir, PodID, "volumes", "gce-pd", Name)`. -/
def GCEPersistentDisk.GetPath (PD : GCEPersistentDisk) : String :=
  pathJoin [PD.RootDir, PD.PodID, "volumes", "gce-pd", PD.Name]

/-- `makeGlobalPDName` of `volume.go`:
`path.Join(rootDir, "global", "pd", devName)`. -/
def makeGlobalPDName (rootDir : String) (devName : String) : String :=
  pathJoin [rootDir, "global", "pd", devName]

/-- `GCEPersistentDisk.SetUp` of `volume.go`.  The first `os.Stat` guard
(`!os.IsNotExist(err)`) returns `nil` when the canonical path already exists
(a `Stat` failure other than not-exist, which the guard also treats as
"already set up", is not modelled); then `util.AttachDisk(PD)`; then, when the
path still does not exist, `os.MkdirAll(GetPath(), 0750)` and
`mounter.Mount(globalPDPath, GetPath(), "", MOUNT_MS_BIND|flags, "")`, where
`flags` is `MOUNT_MS_RDONLY` exactly when `ReadOnly`; a mount failure triggers
`os.RemoveAll(GetPath())` (its error is discarded by the Go code) and returns
the mount error. -/
def GCEPersistentDisk.SetUp (PD : GCEPersistentDisk) (fs : FS) (env : Env) : OpResult Unit :=
  let p := PD.GetPath
  if p ∈ fs.dirs then
    ⟨.ok (), fs, [.statDir p]⟩
  else
    match env.attachDiskRes with
    | .error e => ⟨.error e, fs, [.statDir p, .attachDiskOp PD.PDName]⟩
    | .ok () =>
      let flags := if PD.ReadOnly then MOUNT_MS_RDONLY else 0
      if ¬ p ∈ fs.dirs then
        match env.mkdirAllErr with
        | some e =>
          ⟨.error e, fs, [.statDir p, .attachDiskOp PD.PDName, .statDir p, .mkdirAllOp p 0o750]⟩
        | none =>
          let fs1 := fsMkdirAll fs p
          let globalPDPath := makeGlobalPDName PD.RootDir PD.PDName
          match env.mountRes with
          | .error e =>
            ⟨.error e,
              (if env.removeAllErr.isSome then fs1 else fsRemoveAll fs1 p),
              [.statDir p, .attachDiskOp PD.PDName, .statDir p, .mkdirAllOp p 0o750,
                .mountOp globalPDPath p "" (MOUNT_MS_BIND ||| flags) "", .removeAllOp p]⟩
          | .ok () =>
            ⟨.ok (), fs1,
              [.statDir p, .attachDiskOp PD.PDName, .statDir p, .mkdirAllOp p 0o750,
                .mountOp globalPDPath p "" (MOUNT_MS_BIND ||| flags) ""]⟩
      else
        ⟨.ok (), fs, [.statDir p, .attachDiskOp PD.PDName, .statDir p]⟩

/-- `GCEPersistentDisk.TearDown` of `volume.go`: `mounter.RefCount(PD)`, then
`mounter.Unmount(GetPath(), 0)`, then `refCount--`, then
`os.RemoveAll(GetPath())`, then `util.DetachDisk(PD, devicePath)` exactly when
the decremented count equals 1, each failure aborting with that error. -/
def GCEPersistentDisk.TearDown (PD : GCEPersistentDisk) (fs : FS) (env : Env) : OpResult Unit :=
  let p := PD.GetPath
  match env.refCountRes with
  | .error e => ⟨.error e, fs, [.refCountOp p]⟩
  | .ok (devicePath, refCount) =>
    match env.unmountRes with
    | .error e => ⟨.error e, fs, [.refCountOp p, .unmountOp p 0]⟩
    | .ok () =>
      let refCount := refCount - 1
      match env.removeAllErr with
      | some e => ⟨.error e, fs, [.refCountOp p, .unmountOp p 0, .removeAllOp p]⟩
      | none =>
        let fs1 := fsRemoveAll fs p
        if refCount = 1 then
          match env.detachDiskRes with
          | .error e =>
            ⟨.error e, fs1,
              [.refCountOp p, .unmountOp p 0, .removeAllOp p,
                .detachDiskOp PD.PDName devicePath]⟩
          | .ok () =>
            ⟨.ok (), fs1,
              [.refCountOp p, .unmountOp p 0, .removeAllOp p,
                .detachDiskOp PD.PDName devicePath]⟩
        else
          ⟨.ok (), fs1, [.refCountOp p, .unmountOp p 0, .removeAllOp p]⟩

/-- Modelled from the spec: the `api.HostDirectory` source descriptor of the
volume specification schema, which lives outside `src/` — an absolute path
string. -/
structure ApiHostDirectory where
  Path : String
  deriving DecidableEq, Repr

/-- Modelled from the spec: the `api.EmptyDirectory` source descriptor (no
fields), defined outside `src/`. -/
structure ApiEmptyDirectory where
  deriving DecidableEq, Repr

/-- Modelled from the spec: the `api.GCEPersistentDisk` source descriptor,
defined outside `src/` — external disk name, filesystem type string, integer
partition number where 0 means "no partition suffix", read-only boolean. -/
structure ApiGCEPersistentDisk where
  PDName : String
  FSType : String
  Partition : Int
  ReadOnly : Bool
  deriving DecidableEq, Repr

/-- Modelled from the spec: the `api.VolumeSource` union, defined outside
`src/` — at most one of the three descriptors populated (Go nilable pointer
fields become options). -/
structure VolumeSource where
  HostDirectory : Option ApiHostDirectory
  EmptyDirectory : Option ApiEmptyDirectory
  GCEPersistentDisk : Option ApiGCEPersistentDisk
  deriving DecidableEq, Repr

/-- Modelled from the spec: the `api.Volume` record, defined outside `src/` —
a name plus a nilable source union. -/
structure ApiVolume where
  Name : String
  Source : Option VolumeSource
  deriving DecidableEq, Repr

/-- The error values `volume.go` can return from the factory functions:
`ErrUnsupportedVolumeType` is the only sentinel. -/
inductive VolumeError where
  | unsupportedVolumeType
  deriving DecidableEq, Repr

/-- `ErrUnsupportedVolumeType` of `volume.go`. -/
def ErrUnsupportedVolumeType : VolumeError := .unsupportedVolumeType

/-- The concrete variants a `Builder` returned by `CreateVolumeBuilder` can
be (Go interface values become a sum). -/
inductive Builder where
  | hostDir (h : HostDirectory)
  | emptyDir (e : EmptyDirectory)
  | gcePD (pd : GCEPersistentDisk)
  deriving DecidableEq, Repr

/-- The concrete variants a `Cleaner` returned by `CreateVolumeCleaner` can
be (Go interface values become a sum). -/
inductive Cleaner where
  | emptyDir (e : EmptyDirectory)
  | gcePD (pd : GCEPersistentDisk)
  deriving DecidableEq, Repr

/-- `createHostDirectory` of `volume.go`. -/
def createHostDirectory (_volume : ApiVolume) (_src : VolumeSource) (h : ApiHostDirectory) :
    HostDirectory :=
  ⟨h.Path⟩

/-- `createEmptyDirectory` of `volume.go`. -/
def createEmptyDirectory (volume : ApiVolume) (podID : String) (rootDir : String) :
    EmptyDirectory :=
  ⟨volume.Name, podID, rootDir⟩

/-- `createGCEPersistentDisk` of `volume.go`: `strconv.Itoa(Partition)` with
`"0"` mapped to the empty string; never fails.  The concrete `GCEDiskUtil` and
`DiskMounter` handles it injects are behaviour, supplied per call through
`Env` in this embedding. -/
def createGCEPersistentDisk (volume : ApiVolume) (podID : String) (rootDir : String)
    (g : ApiGCEPersistentDisk) : Except VolumeError GCEPersistentDisk :=
  let partition := if g.Partition = 0 then "" else toString g.Partition
  .ok
    { Name := volume.Name
      PodID := podID
      RootDir := rootDir
      PDName := g.PDName
      FSType := g.FSType
      Partition := partition
      ReadOnly := g.ReadOnly }

/-- `CreateVolumeBuilder` of `volume.go`: `nil` source yields `(nil, nil)`
(modelled `.ok none`); otherwise the first populated descriptor, in source
order host-directory, empty-directory, persistent-disk, wins; none populated
yields `ErrUnsupportedVolumeType`. -/
def CreateVolumeBuilder (volume : ApiVolume) (podID : String) (rootDir : String) :
    Except VolumeError (Option Builder) :=
  match volume.Source with
  | none => .ok none
  | some source =>
    match source.HostDirectory with
    | some h => .ok (some (.hostDir (createHostDirectory volume source h)))
    | none =>
      match source.EmptyDirectory with
      | some _ => .ok (some (.emptyDir (createEmptyDirectory volume podID rootDir)))
      | none =>
        match source.GCEPersistentDisk with
        | some g =>
          match createGCEPersistentDisk volume podID rootDir g with
          | .error e => .error e
          | .ok pd => .ok (some (.gcePD pd))
        | none => .error ErrUnsupportedVolumeType

/-- `CreateVolumeCleaner` of `volume.go`: switch on the kind string; only
`"empty"` and `"gce-pd"` are recognized, anything else is
`ErrUnsupportedVolumeType`.  The `gce-pd` cleaner carries only identity; the
remaining fields are Go zero values. -/
def CreateVolumeCleaner (kind : String) (name : String) (podID : String) (rootDir : String) :
    Except VolumeError Cleaner :=
  if kind = "empty" then
    .ok (.emptyDir ⟨name, podID, rootDir⟩)
  else if kind = "gce-pd" then
    .ok (.gcePD
      { Name := name
        PodID := podID
        RootDir := rootDir
        PDName := ""
        FSType := ""
        Partition := ""
        ReadOnly := false })
  else
    .error ErrUnsupportedVolumeType

/-- One entry returned by `ioutil.ReadDir`: a file name and whether it is a
directory. -/
structure FileInfo where
  name : String
  isDir : Bool
  deriving DecidableEq, Repr

/-- Environment for the reconciler: the directory listing the filesystem
returns at each path (`ioutil.ReadDir`), which may fail. -/
structure ScanEnv where
  readDir : String → Except String (List FileInfo)

/-- The listing `GetCurrentVolumes` iterates over at `p`: on a `ReadDir`
failure the Go code only logs and the loop runs over the `nil` slice, i.e. the
empty list. -/
def readDirList (env : ScanEnv) (p : String) : List FileInfo :=
  match env.readDir p with
  | .error _ => []
  | .ok l => l

/-- Go map assignment `m[k] = c`: any previous binding of `k` is replaced. -/
def mapInsert (m : List (String × Cleaner)) (k : String) (c : Cleaner) :
    List (String × Cleaner) :=
  m.filter (fun kv => kv.1 != k) ++ [(k, c)]

/-- Body of the innermost loop of `GetCurrentVolumes`: one volume-name entry.
`CreateVolumeCleaner` failures are logged and skipped. -/
def scanName (rootDirectory podID volumeKind : String)
    (acc : List (String × Cleaner)) (volumeNameDir : FileInfo) : List (String × Cleaner) :=
  let volumeName := volumeNameDir.name
  let identifier := pathJoin [podID, volumeName]
  match CreateVolumeCleaner volumeKind volumeName podID rootDirectory with
  | .error _ => acc
  | .ok cleaner => mapInsert acc identifier cleaner

/-- Body of the middle loop of `GetCurrentVolumes`: one volume-kind entry
(note the Go code does not check `IsDir` at this level). -/
def scanKind (env : ScanEnv) (rootDirectory podID podIDPath : String)
    (acc : List (String × Cleaner)) (volumeKindDir : FileInfo) : List (String × Cleaner) :=
  let volumeKind := volumeKindDir.name
  let volumeKindPath := pathJoin [podIDPath, volumeKind]
  (readDirList env volumeKindPath).foldl (scanName rootDirectory podID volumeKind) acc

/-- Body of the outer loop of `GetCurrentVolumes`: one pod-id entry,
skipped unless it is a directory. -/
def scanPod (env : ScanEnv) (rootDirectory : String)
    (acc : List (String × Cleaner)) (podIDDir : FileInfo) : List (String × Cleaner) :=
  if !podIDDir.isDir then acc
  else
    let podID := podIDDir.name
    let podIDPath := pathJoin [rootDirectory, podID, "volumes"]
    (readDirList env podIDPath).foldl (scanKind env rootDirectory podID podIDPath) acc

/-- `GetCurrentVolumes` of `volume.go`: walks
`rootDirectory/(podID)/volumes/(kind)/(name)`, building a map keyed by
`path.Join(podID, name)`; every `ReadDir` or `CreateVolumeCleaner` failure is
logged and skipped, and the function always returns the map. -/
def GetCurrentVolumes (env : ScanEnv) (rootDirectory : String) : List (String × Cleaner) :=
  (readDirList env rootDirectory).foldl (scanPod env rootDirectory) []

/-- A key is bound in the (model of the) returned map. -/
def hasKey (m : List (String × Cleaner)) (k : String) : Prop :=
  ∃ c, (k, c) ∈ m

/-- The methods of the volume interfaces in `volume.go`. -/
inductive Method where
  | setUp
  | getPath
  | tearDown
  deriving DecidableEq, Repr

/-- The methods `HostDirectory` defines in `volume.go`: `SetUp` and `GetPath`
only — the type has no `TearDown` method and hence does not satisfy the
`Cleaner` interface. -/
def hostDirectoryMethods : List Method := [.setUp, .getPath]

/-- The methods `EmptyDirectory` defines in `volume.go`. -/
def emptyDirectoryMethods : List Method := [.setUp, .getPath, .tearDown]

/-- The methods `GCEPersistentDisk` defines in `volume.go`. -/
def gcePersistentDiskMethods : List Method := [.getPath, .setUp, .tearDown]

/-! ### Helper lemmas about path strings -/

lemma ne_empty_append (a b : String) (ha : a ≠ "") : a ++ b ≠ "" := by
  intro hab
  apply ha
  have hd := congrArg String.data hab
  rw [String.data_append] at hd
  rcases List.append_eq_nil.mp hd with ⟨h1, _⟩
  cases a
  simp_all

lemma pathJoin_cons (a : String) (l : List String) (ha : a ≠ "") (hl : pathJoin l ≠ "") :
    pathJoin (a :: l) = a ++ "/" ++ pathJoin l := by
  simp [pathJoin, ha, hl]

lemma pathJoin_single (n : String) (hn : n ≠ "") : pathJoin [n] = n := by
  simp [pathJoin, hn]

lemma pathJoin_five (r p k n : String) (hr : r ≠ "") (hp : p ≠ "") (hk : k ≠ "") (hn : n ≠ "") :
    pathJoin [r, p, "volumes", k, n] =
      r ++ "/" ++ (p ++ "/" ++ ("volumes" ++ "/" ++ (k ++ "/" ++ n))) := by
  have h1 : pathJoin [n] = n := pathJoin_single n hn
  have h1' : pathJoin [n] ≠ "" := by rw [h1]; exact hn
  have h2 : pathJoin [k, n] = k ++ "/" ++ n := by rw [pathJoin_cons k [n] hk h1', h1]
  have h2' : pathJoin [k, n] ≠ "" := by
    rw [h2]; exact ne_empty_append _ _ (ne_empty_append _ _ hk)
  have h3 : pathJoin ["volumes", k, n] = "volumes" ++ "/" ++ pathJoin [k, n] :=
    pathJoin_cons _ _ (by decide) h2'
  have h3' : pathJoin ["volumes", k, n] ≠ "" := by
    rw [h3]; exact ne_empty_append _ _ (by decide)
  have h4 : pathJoin [p, "volumes", k, n] = p ++ "/" ++ pathJoin ["volumes", k, n] :=
    pathJoin_cons _ _ hp h3'
  have h4' : pathJoin [p, "volumes", k, n] ≠ "" := by
    rw [h4]; exact ne_empty_append _ _ (ne_empty_append _ _ hp)
  have h5 : pathJoin [r, p, "volumes", k, n] = r ++ "/" ++ pathJoin [p, "volumes", k, n] :=
    pathJoin_cons _ _ hr h4'
  rw [h5, h4, h3, h2]

lemma empty_getPath_eq (emptyDir : EmptyDirectory) (hr : emptyDir.RootDir ≠ "")
    (hp : emptyDir.PodID ≠ "") (hn : emptyDir.Name ≠ "") :
    emptyDir.GetPath =
      emptyDir.RootDir ++ "/" ++ emptyDir.PodID ++ "/volumes/empty/" ++ emptyDir.Name := by
  show pathJoin [emptyDir.RootDir, emptyDir.PodID, "volumes", "empty", emptyDir.Name] = _
  rw [pathJoin_five _ _ _ _ hr hp (by decide) hn]
  have h : ("/volumes/empty/" : String) = "/" ++ ("volumes" ++ "/" ++ ("empty" ++ "/")) := rfl
  rw [h]
  simp only [String.append_assoc]

lemma gcePD_getPath_eq (PD : GCEPersistentDisk) (hr : PD.RootDir ≠ "")
    (hp : PD.PodID ≠ "") (hn : PD.Name ≠ "") :
    PD.GetPath = PD.RootDir ++ "/" ++ PD.PodID ++ "/volumes/gce-pd/" ++ PD.Name := by
  show pathJoin [PD.RootDir, PD.PodID, "volumes", "gce-pd", PD.Name] = _
  rw [pathJoin_five _ _ _ _ hr hp (by decide) hn]
  have h : ("/volumes/gce-pd/" : String) = "/" ++ ("volumes" ++ "/" ++ ("gce-pd" ++ "/")) := rfl
  rw [h]
  simp only [String.append_assoc]

lemma makeGlobalPDName_eq (r d : String) (hr : r ≠ "") (hd : d ≠ "") :
    makeGlobalPDName r d = r ++ "/global/pd/" ++ d := by
  have h1 : pathJoin [d] = d := pathJoin_single d hd
  have h1' : pathJoin [d] ≠ "" := by rw [h1]; exact hd
  have h2 : pathJoin ["pd", d] = "pd" ++ "/" ++ d := by
    rw [pathJoin_cons "pd" [d] (by decide) h1', h1]
  have h2' : pathJoin ["pd", d] ≠ "" := by
    rw [h2]; exact ne_empty_append _ _ (by decide)
  have h3 : pathJoin ["global", "pd", d] = "global" ++ "/" ++ pathJoin ["pd", d] :=
    pathJoin_cons _ _ (by decide) h2'
  have h3' : pathJoin ["global", "pd", d] ≠ "" := by
    rw [h3]; exact ne_empty_append _ _ (by decide)
  show pathJoin [r, "global", "pd", d] = _
  rw [pathJoin_cons _ _ hr h3', h3, h2]
  have h : ("/global/pd/" : String) = "/" ++ ("global" ++ "/" ++ ("pd" ++ "/")) := rfl
  rw [h]
  simp only [String.append_assoc]

/-! ### C1 -/

/-- C1: for every identity, `EmptyDirectory.GetPath` is exactly
`rootDir/podID/volumes/empty/name`, `GCEPersistentDisk.GetPath` is exactly
`rootDir/podID/volumes/gce-pd/name`, and the global persistent-disk mount path
is exactly `rootDir/global/pd/externalDiskName` (for non-empty path
components).  Each is modelled as a pure function of the identity fields
alone, taking no filesystem or environment argument, because the Go source
performs no I/O there — so the identical string is returned on every call and
there are no side effects. -/
theorem canonical_paths (emptyDir : EmptyDirectory) (PD : GCEPersistentDisk) (r d : String)
    (h1 : emptyDir.RootDir ≠ "") (h2 : emptyDir.PodID ≠ "") (h3 : emptyDir.Name ≠ "")
    (h4 : PD.RootDir ≠ "") (h5 : PD.PodID ≠ "") (h6 : PD.Name ≠ "")
    (h7 : r ≠ "") (h8 : d ≠ "") :
    emptyDir.GetPath =
        emptyDir.RootDir ++ "/" ++ emptyDir.PodID ++ "/volumes/empty/" ++ emptyDir.Name ∧
    PD.GetPath = PD.RootDir ++ "/" ++ PD.PodID ++ "/volumes/gce-pd/" ++ PD.Name ∧
    makeGlobalPDName r d = r ++ "/global/pd/" ++ d :=
  ⟨empty_getPath_eq emptyDir h1 h2 h3, gcePD_getPath_eq PD h4 h5 h6,
    makeGlobalPDName_eq r d h7 h8⟩

/-- Witness for C1 at a concrete identity. -/
theorem canonical_paths_witness :
    EmptyDirectory.GetPath ⟨"vol", "pod", "root"⟩ =
        "root" ++ "/" ++ "pod" ++ "/volumes/empty/" ++ "vol" ∧
    GCEPersistentDisk.GetPath ⟨"v", "p", "r", "disk", "ext4", "", true⟩ =
        "r" ++ "/" ++ "p" ++ "/volumes/gce-pd/" ++ "v" ∧
    makeGlobalPDName "r" "disk" = "r" ++ "/global/pd/" ++ "disk" :=
  canonical_paths ⟨"vol", "pod", "root"⟩ ⟨"v", "p", "r", "disk", "ext4", "", true⟩ "r" "disk"
    (by decide) (by decide) (by decide) (by decide) (by decide) (by decide)
    (by decide) (by decide)

/-! ### Branch equations for GCEPersistentDisk.TearDown -/

lemma tearDown_refCount_error (PD : GCEPersistentDisk) (fs : FS) (env : Env) (e : String)
    (he : env.refCountRes = .error e) :
    PD.TearDown fs env = ⟨.error e, fs, [.refCountOp PD.GetPath]⟩ := by
  simp [GCEPersistentDisk.TearDown, he]

lemma tearDown_unmount_error (PD : GCEPersistentDisk) (fs : FS) (env : Env)
    (dev : String) (n : Int) (e : String)
    (hr : env.refCountRes = .ok (dev, n)) (hu : env.unmountRes = .error e) :
    PD.TearDown fs env =
      ⟨.error e, fs, [.refCountOp PD.GetPath, .unmountOp PD.GetPath 0]⟩ := by
  simp [GCEPersistentDisk.TearDown, hr, hu]

lemma tearDown_removeAll_error (PD : GCEPersistentDisk) (fs : FS) (env : Env)
    (dev : String) (n : Int) (e : String)
    (hr : env.refCountRes = .ok (dev, n)) (hu : env.unmountRes = .ok ())
    (ha : env.removeAllErr = some e) :
    PD.TearDown fs env =
      ⟨.error e, fs,
        [.refCountOp PD.GetPath, .unmountOp PD.GetPath 0, .removeAllOp PD.GetPath]⟩ := by
  simp [GCEPersistentDisk.TearDown, hr, hu, ha]

lemma tearDown_detach_case (PD : GCEPersistentDisk) (fs : FS) (env : Env)
    (dev : String) (n : Int)
    (hr : env.refCountRes = .ok (dev, n)) (hu : env.unmountRes = .ok ())
    (ha : env.removeAllErr = none) (hn : n - 1 = 1) :
    PD.TearDown fs env =
      ⟨env.detachDiskRes, fsRemoveAll fs PD.GetPath,
        [.refCountOp PD.GetPath, .unmountOp PD.GetPath 0, .removeAllOp PD.GetPath,
          .detachDiskOp PD.PDName dev]⟩ := by
  cases hd : env.detachDiskRes with
  | error e => simp [GCEPersistentDisk.TearDown, hr, hu, ha, hn, hd]
  | ok u => cases u; simp [GCEPersistentDisk.TearDown, hr, hu, ha, hn, hd]

lemma tearDown_no_detach_case (PD : GCEPersistentDisk) (fs : FS) (env : Env)
    (dev : String) (n : Int)
    (hr : env.refCountRes = .ok (dev, n)) (hu : env.unmountRes = .ok ())
    (ha : env.removeAllErr = none) (hn : n - 1 ≠ 1) :
    PD.TearDown fs env =
      ⟨.ok (), fsRemoveAll fs PD.GetPath,
        [.refCountOp PD.GetPath, .unmountOp PD.GetPath 0, .removeAllOp PD.GetPath]⟩ := by
  simp [GCEPersistentDisk.TearDown, hr, hu, ha, hn]

/-! ### C2 -/

/-- C2 (amended): TearDown first queries RefCount (a query failure aborts with
only that query performed); then unmounts the per-pod path, an unmount failure
returning that error with the directory untouched and no DetachDisk call;
otherwise it decrements the observed count and removes the canonical per-pod
directory — and, provided that removal succeeds, calls DetachDisk if and only
if the decremented count equals 1 (any other decremented value leaves the disk
attached); if the removal fails, the removal error is returned and DetachDisk
is not called even when the decremented count equals 1. -/
theorem gcePD_TearDown_spec (PD : GCEPersistentDisk) (fs : FS) (env : Env) :
    (∀ e, env.refCountRes = .error e →
        PD.TearDown fs env = ⟨.error e, fs, [.refCountOp PD.GetPath]⟩) ∧
    (∀ dev n, env.refCountRes = .ok (dev, n) →
      (∀ e, env.unmountRes = .error e →
          PD.TearDown fs env =
            ⟨.error e, fs, [.refCountOp PD.GetPath, .unmountOp PD.GetPath 0]⟩) ∧
      (env.unmountRes = .ok () →
        (∀ e, env.removeAllErr = some e →
            PD.TearDown fs env =
              ⟨.error e, fs,
                [.refCountOp PD.GetPath, .unmountOp PD.GetPath 0,
                  .removeAllOp PD.GetPath]⟩) ∧
        (env.removeAllErr = none →
          (n - 1 = 1 →
              PD.TearDown fs env =
                ⟨env.detachDiskRes, fsRemoveAll fs PD.GetPath,
                  [.refCountOp PD.GetPath, .unmountOp PD.GetPath 0,
                    .removeAllOp PD.GetPath, .detachDiskOp PD.PDName dev]⟩) ∧
          (n - 1 ≠ 1 →
              PD.TearDown fs env =
                ⟨.ok (), fsRemoveAll fs PD.GetPath,
                  [.refCountOp PD.GetPath, .unmountOp PD.GetPath 0,
                    .removeAllOp PD.GetPath]⟩)))) := by
  refine ⟨fun e he => tearDown_refCount_error PD fs env e he, fun dev n hr => ⟨?_, ?_⟩⟩
  · exact fun e hu => tearDown_unmount_error PD fs env dev n e hr hu
  · intro hu
    refine ⟨fun e ha => tearDown_removeAll_error PD fs env dev n e hr hu ha, fun ha => ⟨?_, ?_⟩⟩
    · exact fun hn => tearDown_detach_case PD fs env dev n hr hu ha hn
    · exact fun hn => tearDown_no_detach_case PD fs env dev n hr hu ha hn

/-- Witness for C2: concrete teardown with observed count 3 (not the last
reference), everything succeeding — the disk stays attached. -/
theorem gcePD_TearDown_spec_witness :
    GCEPersistentDisk.TearDown ⟨"v", "p", "r", "disk", "", "", false⟩
        ⟨["r", "r/p", "r/p/volumes", "r/p/volumes/gce-pd", "r/p/volumes/gce-pd/v"]⟩
        (okEnv 3) =
      ⟨.ok (), fsRemoveAll
          ⟨["r", "r/p", "r/p/volumes", "r/p/volumes/gce-pd", "r/p/volumes/gce-pd/v"]⟩
          (GCEPersistentDisk.GetPath ⟨"v", "p", "r", "disk", "", "", false⟩),
        [.refCountOp (GCEPersistentDisk.GetPath ⟨"v", "p", "r", "disk", "", "", false⟩),
          .unmountOp (GCEPersistentDisk.GetPath ⟨"v", "p", "r", "disk", "", "", false⟩) 0,
          .removeAllOp (GCEPersistentDisk.GetPath ⟨"v", "p", "r", "disk", "", "", false⟩)]⟩ :=
  ((((gcePD_TearDown_spec ⟨"v", "p", "r", "disk", "", "", false⟩
        ⟨["r", "r/p", "r/p/volumes", "r/p/volumes/gce-pd", "r/p/volumes/gce-pd/v"]⟩
        (okEnv 3)).2 "/dev/sdb" 3 rfl).2 rfl).2 rfl).2 (by decide)

/-- Environment refuting C2 as stated: RefCount observes 2, the unmount
succeeds, but RemoveAll fails. -/
def removeFailEnv : Env := { okEnv 2 with removeAllErr := some "remove failed" }

/-- C2 counterexample: the unmount succeeds and the decremented count equals
1, yet DetachDisk is not called (the RemoveAll failure aborts first), refuting
the unconditional "calls DetachDisk if and only if the decremented count
equals 1". -/
theorem gcePD_TearDown_counterexample :
    ((2 : Int) - 1 = 1 ∧ removeFailEnv.unmountRes = .ok ()) ∧
    GCEPersistentDisk.TearDown ⟨"v", "p", "r", "disk", "", "", false⟩
        ⟨["r/p/volumes/gce-pd/v"]⟩ removeFailEnv =
      ⟨.error "remove failed", ⟨["r/p/volumes/gce-pd/v"]⟩,
        [.refCountOp "r/p/volumes/gce-pd/v", .unmountOp "r/p/volumes/gce-pd/v" 0,
          .removeAllOp "r/p/volumes/gce-pd/v"]⟩ := by
  exact ⟨⟨by decide, rfl⟩, by decide⟩

/-! ### C3 -/

/-- C3 counterexample: with every external call succeeding, a RefCount query
observing count 2 makes TearDown call DetachDisk (the trace ends with the
DetachDisk call and TearDown succeeds), refuting "observes count 2 → the disk
is left attached"; and a query observing count 1 does not call DetachDisk,
refuting "observes count 1 → DetachDisk is called". -/
theorem gcePD_refcount_counterexample :
    GCEPersistentDisk.TearDown ⟨"v", "p", "r", "disk", "", "", false⟩
        ⟨["r/p/volumes/gce-pd/v"]⟩ (okEnv 2) =
      ⟨.ok (), ⟨[]⟩,
        [.refCountOp "r/p/volumes/gce-pd/v", .unmountOp "r/p/volumes/gce-pd/v" 0,
          .removeAllOp "r/p/volumes/gce-pd/v", .detachDiskOp "disk" "/dev/sdb"]⟩ ∧
    GCEPersistentDisk.TearDown ⟨"v", "p", "r", "disk", "", "", false⟩
        ⟨["r/p/volumes/gce-pd/v"]⟩ (okEnv 1) =
      ⟨.ok (), ⟨[]⟩,
        [.refCountOp "r/p/volumes/gce-pd/v", .unmountOp "r/p/volumes/gce-pd/v" 0,
          .removeAllOp "r/p/volumes/gce-pd/v"]⟩ := by
  exact ⟨by decide, by decide⟩

/-- C3 (amended): the refcount observed by RefCount counts the global mount as
well as the per-pod bind mounts, so with two bind mounts of the same disk the
query observes 3: tearing down the first (observed count 3, decremented 2)
leaves the disk attached, and tearing down the second (observed count 2,
decremented 1) detaches it — provided unmount and removal succeed. -/
theorem gcePD_refcount_boundary (PD : GCEPersistentDisk) (fs : FS) (env : Env) (dev : String)
    (hu : env.unmountRes = .ok ()) (ha : env.removeAllErr = none) :
    (env.refCountRes = .ok (dev, 3) →
        PD.TearDown fs env =
          ⟨.ok (), fsRemoveAll fs PD.GetPath,
            [.refCountOp PD.GetPath, .unmountOp PD.GetPath 0, .removeAllOp PD.GetPath]⟩) ∧
    (env.refCountRes = .ok (dev, 2) →
        .detachDiskOp PD.PDName dev ∈ (PD.TearDown fs env).trace) := by
  constructor
  · intro hr
    exact tearDown_no_detach_case PD fs env dev 3 hr hu ha (by decide)
  · intro hr
    rw [tearDown_detach_case PD fs env dev 2 hr hu ha (by decide)]
    simp

/-- Witness for C3 at a concrete disk and filesystem. -/
theorem gcePD_refcount_boundary_witness :
    GCEPersistentDisk.TearDown ⟨"v", "p", "r", "disk", "", "", false⟩
        ⟨["r/p/volumes/gce-pd/v"]⟩ (okEnv 3) =
      ⟨.ok (),
        fsRemoveAll ⟨["r/p/volumes/gce-pd/v"]⟩
          (GCEPersistentDisk.GetPath ⟨"v", "p", "r", "disk", "", "", false⟩),
        [.refCountOp (GCEPersistentDisk.GetPath ⟨"v", "p", "r", "disk", "", "", false⟩),
          .unmountOp (GCEPersistentDisk.GetPath ⟨"v", "p", "r", "disk", "", "", false⟩) 0,
          .removeAllOp (GCEPersistentDisk.GetPath ⟨"v", "p", "r", "disk", "", "", false⟩)]⟩ :=
  (gcePD_refcount_boundary ⟨"v", "p", "r", "disk", "", "", false⟩
      ⟨["r/p/volumes/gce-pd/v"]⟩ (okEnv 3) "/dev/sdb" rfl rfl).1 rfl

/-! ### Branch equations for GCEPersistentDisk.SetUp -/

lemma setUp_already_exists (PD : GCEPersistentDisk) (fs : FS) (env : Env)
    (h : PD.GetPath ∈ fs.dirs) :
    PD.SetUp fs env = ⟨.ok (), fs, [.statDir PD.GetPath]⟩ := by
  simp [GCEPersistentDisk.SetUp, h]

lemma setUp_attach_error (PD : GCEPersistentDisk) (fs : FS) (env : Env) (e : String)
    (h : PD.GetPath ∉ fs.dirs) (ha : env.attachDiskRes = .error e) :
    PD.SetUp fs env = ⟨.error e, fs, [.statDir PD.GetPath, .attachDiskOp PD.PDName]⟩ := by
  simp [GCEPersistentDisk.SetUp, h, ha]

lemma setUp_mount_ok (PD : GCEPersistentDisk) (fs : FS) (env : Env)
    (h : PD.GetPath ∉ fs.dirs) (ha : env.attachDiskRes = .ok ())
    (hm : env.mkdirAllErr = none) (ho : env.mountRes = .ok ()) :
    PD.SetUp fs env =
      ⟨.ok (), fsMkdirAll fs PD.GetPath,
        [.statDir PD.GetPath, .attachDiskOp PD.PDName, .statDir PD.GetPath,
          .mkdirAllOp PD.GetPath 0o750,
          .mountOp (makeGlobalPDName PD.RootDir PD.PDName) PD.GetPath ""
            (MOUNT_MS_BIND ||| (if PD.ReadOnly then MOUNT_MS_RDONLY else 0)) ""]⟩ := by
  simp [GCEPersistentDisk.SetUp, h, ha, hm, ho]

lemma setUp_mount_error (PD : GCEPersistentDisk) (fs : FS) (env : Env) (e : String)
    (h : PD.GetPath ∉ fs.dirs) (ha : env.attachDiskRes = .ok ())
    (hm : env.mkdirAllErr = none) (ho : env.mountRes = .error e)
    (hra : env.removeAllErr = none) :
    PD.SetUp fs env =
      ⟨.error e, fsRemoveAll (fsMkdirAll fs PD.GetPath) PD.GetPath,
        [.statDir PD.GetPath, .attachDiskOp PD.PDName, .statDir PD.GetPath,
          .mkdirAllOp PD.GetPath 0o750,
          .mountOp (makeGlobalPDName PD.RootDir PD.PDName) PD.GetPath ""
            (MOUNT_MS_BIND ||| (if PD.ReadOnly then MOUNT_MS_RDONLY else 0)) "",
          .removeAllOp PD.GetPath]⟩ := by
  simp [GCEPersistentDisk.SetUp, h, ha, hm, ho, hra]

lemma setUp_no_detach (PD : GCEPersistentDisk) (fs : FS) (env : Env) :
    ∀ pd d, Event.detachDiskOp pd d ∉ (PD.SetUp fs env).trace := by
  intro pd d
  by_cases h : PD.GetPath ∈ fs.dirs
  · simp [setUp_already_exists PD fs env h]
  · cases ha : env.attachDiskRes with
    | error e => simp [setUp_attach_error PD fs env e h ha]
    | ok u =>
      cases u
      cases hm : env.mkdirAllErr with
      | some e => simp [GCEPersistentDisk.SetUp, h, ha, hm]
      | none =>
        cases ho : env.mountRes with
        | error e => simp [GCEPersistentDisk.SetUp, h, ha, hm, ho]
        | ok u => cases u; simp [GCEPersistentDisk.SetUp, h, ha, hm, ho]

/-! ### C4 -/

/-- C4: on a GCEPersistentDisk whose canonical per-pod path does not exist,
SetUp performs, in order, AttachDisk (a failure there is returned with no
directory created), creation of the canonical per-pod directory with mode
0750, and a bind mount of the global path onto the canonical path whose flags
are the bind flag together with the read-only flag exactly when ReadOnly; if
the bind mount fails, the just-created directory is removed and the mount
error returned; no branch of SetUp ever calls DetachDisk. -/
theorem gcePD_SetUp_spec (PD : GCEPersistentDisk) (fs : FS) (env : Env)
    (h : PD.GetPath ∉ fs.dirs) :
    (∀ e, env.attachDiskRes = .error e →
        PD.SetUp fs env = ⟨.error e, fs, [.statDir PD.GetPath, .attachDiskOp PD.PDName]⟩) ∧
    (env.attachDiskRes = .ok () → env.mkdirAllErr = none →
      (env.mountRes = .ok () →
          PD.SetUp fs env =
            ⟨.ok (), fsMkdirAll fs PD.GetPath,
              [.statDir PD.GetPath, .attachDiskOp PD.PDName, .statDir PD.GetPath,
                .mkdirAllOp PD.GetPath 0o750,
                .mountOp (makeGlobalPDName PD.RootDir PD.PDName) PD.GetPath ""
                  (MOUNT_MS_BIND ||| (if PD.ReadOnly then MOUNT_MS_RDONLY else 0)) ""]⟩) ∧
      (∀ e, env.mountRes = .error e → env.removeAllErr = none →
          PD.SetUp fs env =
            ⟨.error e, fsRemoveAll (fsMkdirAll fs PD.GetPath) PD.GetPath,
              [.statDir PD.GetPath, .attachDiskOp PD.PDName, .statDir PD.GetPath,
                .mkdirAllOp PD.GetPath 0o750,
                .mountOp (makeGlobalPDName PD.RootDir PD.PDName) PD.GetPath ""
                  (MOUNT_MS_BIND ||| (if PD.ReadOnly then MOUNT_MS_RDONLY else 0)) "",
                .removeAllOp PD.GetPath]⟩)) ∧
    (∀ pd d, Event.detachDiskOp pd d ∉ (PD.SetUp fs env).trace) := by
  refine ⟨fun e ha => setUp_attach_error PD fs env e h ha, fun ha hm => ⟨?_, ?_⟩, ?_⟩
  · exact fun ho => setUp_mount_ok PD fs env h ha hm ho
  · exact fun e ho hra => setUp_mount_error PD fs env e h ha hm ho hra
  · exact setUp_no_detach PD fs env

/-- Witness for C4: a concrete read-only disk set up on an empty filesystem;
the bind mount carries MS_BIND with MS_RDONLY added. -/
theorem gcePD_SetUp_spec_witness :
    GCEPersistentDisk.GetPath ⟨"v", "p", "r", "disk", "ext4", "", true⟩ ∉ (⟨[]⟩ : FS).dirs ∧
    GCEPersistentDisk.SetUp ⟨"v", "p", "r", "disk", "ext4", "", true⟩ ⟨[]⟩ (okEnv 1) =
      ⟨.ok (), fsMkdirAll ⟨[]⟩ (GCEPersistentDisk.GetPath ⟨"v", "p", "r", "disk", "ext4", "", true⟩),
        [.statDir (GCEPersistentDisk.GetPath ⟨"v", "p", "r", "disk", "ext4", "", true⟩),
          .attachDiskOp "disk",
          .statDir (GCEPersistentDisk.GetPath ⟨"v", "p", "r", "disk", "ext4", "", true⟩),
          .mkdirAllOp (GCEPersistentDisk.GetPath ⟨"v", "p", "r", "disk", "ext4", "", true⟩) 0o750,
          .mountOp (makeGlobalPDName "r" "disk")
            (GCEPersistentDisk.GetPath ⟨"v", "p", "r", "disk", "ext4", "", true⟩) ""
            (MOUNT_MS_BIND ||| MOUNT_MS_RDONLY) ""]⟩ :=
  ⟨by decide,
    (((gcePD_SetUp_spec ⟨"v", "p", "r", "disk", "ext4", "", true⟩ ⟨[]⟩ (okEnv 1)
        (by decide)).2.1 rfl rfl).1 rfl).trans (by decide)⟩

/-! ### Lemmas about the filesystem model -/

lemma mem_listInsert_iff (acc : List String) (q a : String) :
    a ∈ listInsert acc q ↔ a ∈ acc ∨ a = q := by
  unfold listInsert
  by_cases h : q ∈ acc
  · simp only [if_pos h]
    constructor
    · exact Or.inl
    · rintro (h1 | rfl)
      · exact h1
      · exact h
  · simp [if_neg h, List.mem_append]

lemma mem_foldl_listInsert (L : List String) (acc : List String) (a : String) :
    a ∈ L.foldl listInsert acc ↔ a ∈ acc ∨ a ∈ L := by
  induction L generalizing acc with
  | nil => simp
  | cons b L ih =>
    simp only [List.foldl_cons, ih, mem_listInsert_iff, List.mem_cons]
    tauto

lemma foldl_listInsert_eq_of_subset (L acc : List String) (h : ∀ a ∈ L, a ∈ acc) :
    L.foldl listInsert acc = acc := by
  induction L generalizing acc with
  | nil => rfl
  | cons b L ih =>
    have hb : b ∈ acc := h b (List.mem_cons_self b L)
    have hins : listInsert acc b = acc := by simp [listInsert, hb]
    simp only [List.foldl_cons, hins]
    exact ih acc (fun a ha => h a (List.mem_cons_of_mem b ha))

lemma mem_fsMkdirAll_self (fs : FS) (p : String) : p ∈ (fsMkdirAll fs p).dirs := by
  unfold fsMkdirAll
  exact (mem_foldl_listInsert _ _ _).mpr (Or.inr (by simp))

lemma fsMkdirAll_idem (fs : FS) (p : String) :
    fsMkdirAll (fsMkdirAll fs p) p = fsMkdirAll fs p := by
  unfold fsMkdirAll
  congr 1
  apply foldl_listInsert_eq_of_subset
  intro a ha
  exact (mem_foldl_listInsert _ _ _).mpr (Or.inr ha)

/-! ### C5 -/

/-- C5: SetUp is idempotent for every variant that implements it.  A
HostDirectory SetUp always succeeds and changes nothing, so any repetition is
harmless; a GCEPersistentDisk SetUp whose canonical path already exists — in
particular the state immediately after a successful SetUp — returns nil after
only the Stat probe, calling neither AttachDisk nor Mount; and a second
EmptyDirectory SetUp returns success and maps the filesystem produced by the
first to itself (the already-created directory is unchanged). -/
theorem setUp_idempotent (hostVol : HostDirectory) (PD : GCEPersistentDisk)
    (emptyDir : EmptyDirectory) (fs : FS) (env : Env)
    (hmk : env.mkdirAllErr = none) (hatt : env.attachDiskRes = .ok ())
    (hmo : env.mountRes = .ok ()) :
    (hostVol.SetUp fs env = ⟨.ok (), fs, []⟩) ∧
    (∀ fs1 : FS, PD.GetPath ∈ fs1.dirs →
        PD.SetUp fs1 env = ⟨.ok (), fs1, [.statDir PD.GetPath]⟩) ∧
    (PD.GetPath ∉ fs.dirs →
        PD.GetPath ∈ (PD.SetUp fs env).fs.dirs ∧
        PD.SetUp (PD.SetUp fs env).fs env =
          ⟨.ok (), (PD.SetUp fs env).fs, [.statDir PD.GetPath]⟩) ∧
    ((emptyDir.SetUp fs env).res = .ok () ∧
      emptyDir.SetUp (emptyDir.SetUp fs env).fs env =
        ⟨.ok (), (emptyDir.SetUp fs env).fs, [.mkdirAllOp emptyDir.GetPath 0o750]⟩) := by
  refine ⟨rfl, fun fs1 h1 => setUp_already_exists PD fs1 env h1, ?_, ?_⟩
  · intro h
    have hrun := setUp_mount_ok PD fs env h hatt hmk hmo
    rw [hrun]
    exact ⟨mem_fsMkdirAll_self fs PD.GetPath,
      setUp_already_exists PD _ env (mem_fsMkdirAll_self fs PD.GetPath)⟩
  · have hrun : emptyDir.SetUp fs env =
        ⟨.ok (), fsMkdirAll fs emptyDir.GetPath, [.mkdirAllOp emptyDir.GetPath 0o750]⟩ := by
      simp [EmptyDirectory.SetUp, hmk]
    rw [hrun]
    refine ⟨rfl, ?_⟩
    show EmptyDirectory.SetUp emptyDir (fsMkdirAll fs emptyDir.GetPath) env = _
    simp [EmptyDirectory.SetUp, hmk, fsMkdirAll_idem]

/-- Witness for C5 at concrete volumes on an empty filesystem. -/
theorem setUp_idempotent_witness :
    HostDirectory.SetUp ⟨"/host/dir"⟩ ⟨[]⟩ (okEnv 1) = ⟨.ok (), ⟨[]⟩, []⟩ ∧
    (EmptyDirectory.SetUp ⟨"vol", "pod", "root"⟩ ⟨[]⟩ (okEnv 1)).res = .ok () ∧
    EmptyDirectory.SetUp ⟨"vol", "pod", "root"⟩
        (EmptyDirectory.SetUp ⟨"vol", "pod", "root"⟩ ⟨[]⟩ (okEnv 1)).fs (okEnv 1) =
      ⟨.ok (), (EmptyDirectory.SetUp ⟨"vol", "pod", "root"⟩ ⟨[]⟩ (okEnv 1)).fs,
        [.mkdirAllOp (EmptyDirectory.GetPath ⟨"vol", "pod", "root"⟩) 0o750]⟩ :=
  have h := setUp_idempotent ⟨"/host/dir"⟩ ⟨"v", "p", "r", "disk", "", "", false⟩
    ⟨"vol", "pod", "root"⟩ ⟨[]⟩ (okEnv 1) rfl rfl rfl
  ⟨h.1, h.2.2.2.1, h.2.2.2.2⟩

/-! ### C6 -/

/-- C6: evaluation of the code at the claim's failing input.  On an
EmptyDirectory that was never set up (empty filesystem, no injected failures,
note `(okEnv 0).tempDirErr = none` and `(okEnv 0).renameErr = none`),
TearDown does not return success: `renameDirectory` starts with
`ioutil.TempDir(path.Dir(oldPath), ...)`, which fails because the parent
directory `root/pod/volumes/empty` does not exist either, and TearDown
surfaces that error — contradicting the idempotence the code's own interface
comment demands ("All method implementations of methods in the volume
interface must be idempotent"). -/
theorem emptyDir_tearDown_never_setup :
    (okEnv 0).tempDirErr = none ∧ (okEnv 0).renameErr = none ∧
    EmptyDirectory.TearDown ⟨"vol", "pod", "root"⟩ ⟨[]⟩ (okEnv 0) =
      ⟨.error "no such file or directory: root/pod/volumes/empty", ⟨[]⟩,
        [.tempDirOp "root/pod/volumes/empty" "vol.deleting~"]⟩ :=
  ⟨rfl, rfl, by decide⟩

/-! ### C7 -/

/-- C7: CreateVolumeBuilder returns no volume and no error (modelled
`.ok none`) for a specification with no source; it returns
ErrUnsupportedVolumeType for a specification whose source is set but has none
of the three descriptors populated; and CreateVolumeCleaner returns
ErrUnsupportedVolumeType for every kind string other than "empty" and
"gce-pd". -/
theorem factory_dispatch (volume : ApiVolume) (src : VolumeSource)
    (kind name podID rootDir : String) :
    (volume.Source = none → CreateVolumeBuilder volume podID rootDir = .ok none) ∧
    (volume.Source = some src → src.HostDirectory = none → src.EmptyDirectory = none →
        src.GCEPersistentDisk = none →
        CreateVolumeBuilder volume podID rootDir = .error ErrUnsupportedVolumeType) ∧
    (kind ≠ "empty" → kind ≠ "gce-pd" →
        CreateVolumeCleaner kind name podID rootDir = .error ErrUnsupportedVolumeType) := by
  refine ⟨?_, ?_, ?_⟩
  · intro h
    simp [CreateVolumeBuilder, h]
  · intro h h1 h2 h3
    simp [CreateVolumeBuilder, h, h1, h2, h3]
  · intro h1 h2
    simp [CreateVolumeCleaner, h1, h2]

/-- Witness for C7: a sourceless specification, an all-empty source, and the
unknown kind "host". -/
theorem factory_dispatch_witness :
    CreateVolumeBuilder ⟨"v", none⟩ "p" "r" = .ok none ∧
    CreateVolumeBuilder ⟨"v", some ⟨none, none, none⟩⟩ "p" "r" =
        .error ErrUnsupportedVolumeType ∧
    CreateVolumeCleaner "host" "n" "p" "r" = .error ErrUnsupportedVolumeType :=
  ⟨(factory_dispatch ⟨"v", none⟩ ⟨none, none, none⟩ "host" "n" "p" "r").1 rfl,
    (factory_dispatch ⟨"v", some ⟨none, none, none⟩⟩ ⟨none, none, none⟩ "host" "n" "p"
        "r").2.1 rfl rfl rfl rfl,
    (factory_dispatch ⟨"v", none⟩ ⟨none, none, none⟩ "host" "n" "p" "r").2.2
      (by decide) (by decide)⟩

/-! ### C9 -/

/-- C9 counterexample: `HostDirectory` defines no `TearDown` method in
`volume.go` (its method set is `SetUp` and `GetPath` only), so the claim's
"HostDirectory.TearDown is a no-op returning success" is false — there is no
such method to return success. -/
theorem hostDir_no_tearDown : Method.tearDown ∉ hostDirectoryMethods := by
  decide

/-- C9 (amended): `HostDirectory.SetUp` is a no-op — it always returns
success, leaves the filesystem unchanged and performs no external calls — and
`GetPath` returns the caller-supplied path verbatim; `HostDirectory`
implements no `TearDown` method at all (it is never torn down by this
package). -/
theorem hostDir_noop (hostVol : HostDirectory) (fs : FS) (env : Env) :
    hostVol.SetUp fs env = ⟨.ok (), fs, []⟩ ∧
    hostVol.GetPath = hostVol.Path ∧
    Method.tearDown ∉ hostDirectoryMethods :=
  ⟨rfl, rfl, by decide⟩

/-! ### Lemmas about the reconciler -/

lemma hasKey_mapInsert (m : List (String × Cleaner)) (k k1 : String) (c : Cleaner)
    (h : hasKey m k) : hasKey (mapInsert m k1 c) k := by
  by_cases hk : k = k1
  · subst hk
    exact ⟨c, by simp [mapInsert]⟩
  · obtain ⟨c', hc⟩ := h
    refine ⟨c', ?_⟩
    simp only [mapInsert, List.mem_append, List.mem_filter]
    exact Or.inl ⟨hc, by simp [bne_iff_ne, hk]⟩

lemma hasKey_mapInsert_self (m : List (String × Cleaner)) (k : String) (c : Cleaner) :
    hasKey (mapInsert m k c) k :=
  ⟨c, by simp [mapInsert]⟩

lemma mem_mapInsert (m : List (String × Cleaner)) (k : String) (c : Cleaner)
    (kc : String × Cleaner) (h : kc ∈ mapInsert m k c) : kc ∈ m ∨ kc = (k, c) := by
  rcases List.mem_append.mp h with h1 | h1
  · exact Or.inl (List.mem_filter.mp h1).1
  · exact Or.inr (by simpa using h1)

lemma hasKey_foldl {β : Type} (step : List (String × Cleaner) → β → List (String × Cleaner))
    (hstep : ∀ acc b k, hasKey acc k → hasKey (step acc b) k) :
    ∀ (L : List β) (acc : List (String × Cleaner)) (k : String),
      hasKey acc k → hasKey (L.foldl step acc) k := by
  intro L
  induction L with
  | nil => exact fun acc k h => h
  | cons b L ih => exact fun acc k h => ih _ _ (hstep acc b k h)

lemma hasKey_foldl_of_mem {β : Type}
    (step : List (String × Cleaner) → β → List (String × Cleaner))
    (hstep : ∀ acc b k, hasKey acc k → hasKey (step acc b) k)
    (b0 : β) (k : String) (hadd : ∀ acc, hasKey (step acc b0) k) :
    ∀ (L : List β) (acc : List (String × Cleaner)), b0 ∈ L → hasKey (L.foldl step acc) k := by
  intro L
  induction L with
  | nil => intro acc h; cases h
  | cons b L ih =>
    intro acc hmem
    rcases List.mem_cons.mp hmem with hb | hmem0
    · subst hb
      exact hasKey_foldl step hstep L _ k (hadd acc)
    · exact ih _ hmem0

lemma foldl_sound {β : Type} (step : List (String × Cleaner) → β → List (String × Cleaner))
    (P : β → String × Cleaner → Prop)
    (hstep : ∀ acc b kc, kc ∈ step acc b → kc ∈ acc ∨ P b kc) :
    ∀ (L : List β) (acc : List (String × Cleaner)) (kc : String × Cleaner),
      kc ∈ L.foldl step acc → kc ∈ acc ∨ ∃ b ∈ L, P b kc := by
  intro L
  induction L with
  | nil => exact fun acc kc h => Or.inl h
  | cons b L ih =>
    intro acc kc h
    rcases ih _ _ h with h1 | ⟨b1, hb1, hp⟩
    · rcases hstep acc b kc h1 with h2 | hp
      · exact Or.inl h2
      · exact Or.inr ⟨b, List.mem_cons_self b L, hp⟩
    · exact Or.inr ⟨b1, List.mem_cons_of_mem _ hb1, hp⟩

lemma scanName_hasKey (root podID kind : String) (acc : List (String × Cleaner))
    (nd : FileInfo) (k : String) (h : hasKey acc k) :
    hasKey (scanName root podID kind acc nd) k := by
  unfold scanName
  cases hc : CreateVolumeCleaner kind nd.name podID root with
  | error e => simpa [hc] using h
  | ok c =>
    simp only [hc]
    exact hasKey_mapInsert _ _ _ _ h

lemma scanName_adds (root podID kind : String) (nd : FileInfo) (c : Cleaner)
    (hc : CreateVolumeCleaner kind nd.name podID root = .ok c)
    (acc : List (String × Cleaner)) :
    hasKey (scanName root podID kind acc nd) (pathJoin [podID, nd.name]) := by
  simp only [scanName, hc]
  exact hasKey_mapInsert_self _ _ _

lemma scanName_sound (root podID kind : String) (acc : List (String × Cleaner))
    (nd : FileInfo) (kc : String × Cleaner) (h : kc ∈ scanName root podID kind acc nd) :
    kc ∈ acc ∨
      (CreateVolumeCleaner kind nd.name podID root = .ok kc.2 ∧
        kc.1 = pathJoin [podID, nd.name]) := by
  simp only [scanName] at h
  cases hc : CreateVolumeCleaner kind nd.name podID root with
  | error e =>
    simp only [hc] at h
    exact Or.inl h
  | ok c =>
    simp only [hc] at h
    rcases mem_mapInsert _ _ _ _ h with h1 | h1
    · exact Or.inl h1
    · subst h1
      exact Or.inr ⟨by simp [hc], rfl⟩

lemma scanKind_hasKey (env : ScanEnv) (root podID podIDPath : String)
    (acc : List (String × Cleaner)) (kd : FileInfo) (k : String) (h : hasKey acc k) :
    hasKey (scanKind env root podID podIDPath acc kd) k := by
  unfold scanKind
  exact hasKey_foldl _ (scanName_hasKey root podID kd.name) _ _ _ h

lemma scanKind_adds (env : ScanEnv) (root podID podIDPath : String)
    (kd nd : FileInfo) (c : Cleaner)
    (hnd : nd ∈ readDirList env (pathJoin [podIDPath, kd.name]))
    (hc : CreateVolumeCleaner kd.name nd.name podID root = .ok c)
    (acc : List (String × Cleaner)) :
    hasKey (scanKind env root podID podIDPath acc kd) (pathJoin [podID, nd.name]) := by
  unfold scanKind
  exact hasKey_foldl_of_mem _ (scanName_hasKey root podID kd.name) nd _
    (fun acc1 => scanName_adds root podID kd.name nd c hc acc1) _ _ hnd

lemma scanKind_sound (env : ScanEnv) (root podID podIDPath : String)
    (acc : List (String × Cleaner)) (kd : FileInfo) (kc : String × Cleaner)
    (h : kc ∈ scanKind env root podID podIDPath acc kd) :
    kc ∈ acc ∨
      ∃ nd ∈ readDirList env (pathJoin [podIDPath, kd.name]),
        CreateVolumeCleaner kd.name nd.name podID root = .ok kc.2 ∧
        kc.1 = pathJoin [podID, nd.name] := by
  unfold scanKind at h
  exact foldl_sound _ _ (fun acc1 nd kc1 h1 => scanName_sound root podID kd.name acc1 nd kc1 h1)
    _ _ _ h

lemma scanPod_hasKey (env : ScanEnv) (root : String) (acc : List (String × Cleaner))
    (pd : FileInfo) (k : String) (h : hasKey acc k) :
    hasKey (scanPod env root acc pd) k := by
  unfold scanPod
  by_cases hd : pd.isDir
  · simp only [hd, Bool.not_true, Bool.false_eq_true, if_false]
    exact hasKey_foldl _ (fun acc1 kd k1 h1 => scanKind_hasKey env root pd.name _ acc1 kd k1 h1)
      _ _ _ h
  · simp only [Bool.not_eq_true] at hd
    simpa [hd] using h

lemma scanPod_adds (env : ScanEnv) (root : String) (pd kd nd : FileInfo) (c : Cleaner)
    (hdir : pd.isDir = true)
    (hkd : kd ∈ readDirList env (pathJoin [root, pd.name, "volumes"]))
    (hnd : nd ∈ readDirList env
      (pathJoin [pathJoin [root, pd.name, "volumes"], kd.name]))
    (hc : CreateVolumeCleaner kd.name nd.name pd.name root = .ok c)
    (acc : List (String × Cleaner)) :
    hasKey (scanPod env root acc pd) (pathJoin [pd.name, nd.name]) := by
  unfold scanPod
  simp only [hdir, Bool.not_true, Bool.false_eq_true, if_false]
  exact hasKey_foldl_of_mem _
    (fun acc1 kd1 k1 h1 => scanKind_hasKey env root pd.name _ acc1 kd1 k1 h1) kd _
    (fun acc1 => scanKind_adds env root pd.name _ kd nd c hnd hc acc1) _ _ hkd

lemma scanPod_sound (env : ScanEnv) (root : String) (acc : List (String × Cleaner))
    (pd : FileInfo) (kc : String × Cleaner) (h : kc ∈ scanPod env root acc pd) :
    kc ∈ acc ∨
      (pd.isDir = true ∧
        ∃ kd ∈ readDirList env (pathJoin [root, pd.name, "volumes"]),
        ∃ nd ∈ readDirList env (pathJoin [pathJoin [root, pd.name, "volumes"], kd.name]),
          CreateVolumeCleaner kd.name nd.name pd.name root = .ok kc.2 ∧
          kc.1 = pathJoin [pd.name, nd.name]) := by
  unfold scanPod at h
  by_cases hd : pd.isDir
  · simp only [hd, Bool.not_true, Bool.false_eq_true, if_false] at h
    rcases foldl_sound _ _
        (fun acc1 kd kc1 h1 => scanKind_sound env root pd.name _ acc1 kd kc1 h1) _ _ _ h with
      h1 | ⟨kd, hkd, hp⟩
    · exact Or.inl h1
    · exact Or.inr ⟨hd, kd, hkd, hp⟩
  · simp only [Bool.not_eq_true] at hd
    simp only [hd] at h
    exact Or.inl h

/-! ### C8 -/

/-- C8: the reconciler is total (it returns a list-modelled map, never an
error; a ReadDir failure yields the empty listing for that level, skipping
only that subtree).  Completeness: every (podID, kind, name) triple found at
`root/podID/volumes/kind/name` whose kind `CreateVolumeCleaner` recognizes
contributes a Cleaner under the key `podID/name`.  Soundness: every entry of
the result arises from such a found triple with a recognized kind — in
particular triples with unrecognized kinds never appear. -/
theorem getCurrentVolumes_spec (env : ScanEnv) (root : String) :
    (∀ pd kd nd : FileInfo, ∀ c : Cleaner,
        pd ∈ readDirList env root → pd.isDir = true →
        kd ∈ readDirList env (pathJoin [root, pd.name, "volumes"]) →
        nd ∈ readDirList env (pathJoin [pathJoin [root, pd.name, "volumes"], kd.name]) →
        CreateVolumeCleaner kd.name nd.name pd.name root = .ok c →
        hasKey (GetCurrentVolumes env root) (pathJoin [pd.name, nd.name])) ∧
    (∀ k : String, ∀ c : Cleaner, (k, c) ∈ GetCurrentVolumes env root →
        ∃ pd ∈ readDirList env root, pd.isDir = true ∧
        ∃ kd ∈ readDirList env (pathJoin [root, pd.name, "volumes"]),
        ∃ nd ∈ readDirList env (pathJoin [pathJoin [root, pd.name, "volumes"], kd.name]),
          CreateVolumeCleaner kd.name nd.name pd.name root = .ok c ∧
          k = pathJoin [pd.name, nd.name]) ∧
    (∀ e, env.readDir root = .error e → GetCurrentVolumes env root = []) := by
  refine ⟨?_, ?_, ?_⟩
  · intro pd kd nd c hpd hdir hkd hnd hc
    unfold GetCurrentVolumes
    exact hasKey_foldl_of_mem _ (scanPod_hasKey env root) pd _
      (fun acc => scanPod_adds env root pd kd nd c hdir hkd hnd hc acc) _ _ hpd
  · intro k c h
    unfold GetCurrentVolumes at h
    rcases foldl_sound _ _ (scanPod_sound env root) _ _ _ h with h1 | ⟨pd, hpd, hp⟩
    · cases h1
    · exact ⟨pd, hpd, hp.1, hp.2⟩
  · intro e he
    simp [GetCurrentVolumes, readDirList, he]

/-- The spec's reconciliation scenario: `root/pod-A/volumes/empty/cache`,
`root/pod-B/volumes/gce-pd/data`, and a malformed `root/pod-C/volumes/unknown/x`
(listings are in the sorted order Go's `ioutil.ReadDir` returns). -/
def scenarioScanEnv : ScanEnv :=
  ⟨fun p =>
    if p = "root" then .ok [⟨"pod-A", true⟩, ⟨"pod-B", true⟩, ⟨"pod-C", true⟩]
    else if p = "root/pod-A/volumes" then .ok [⟨"empty", true⟩]
    else if p = "root/pod-A/volumes/empty" then .ok [⟨"cache", true⟩]
    else if p = "root/pod-B/volumes" then .ok [⟨"gce-pd", true⟩]
    else if p = "root/pod-B/volumes/gce-pd" then .ok [⟨"data", true⟩]
    else if p = "root/pod-C/volumes" then .ok [⟨"unknown", true⟩]
    else if p = "root/pod-C/volumes/unknown" then .ok [⟨"x", true⟩]
    else .error "no such file or directory"⟩

/-- Witness for C8: in the spec's scenario the key `pod-A/cache` is bound. -/
theorem getCurrentVolumes_spec_witness :
    (⟨"pod-A", true⟩ : FileInfo) ∈ readDirList scenarioScanEnv "root" ∧
    hasKey (GetCurrentVolumes scenarioScanEnv "root") (pathJoin ["pod-A", "cache"]) :=
  ⟨by decide,
    (getCurrentVolumes_spec scenarioScanEnv "root").1 ⟨"pod-A", true⟩ ⟨"empty", true⟩
      ⟨"cache", true⟩ (.emptyDir ⟨"cache", "pod-A", "root"⟩)
      (by decide) rfl (by decide) (by decide) (by decide)⟩

/-! ### C10 -/

/-- Directory tree for C10: the same volume name `x` appears under both the
`empty` and the `gce-pd` kind directory of pod `p` (listings in the sorted
order Go's `ioutil.ReadDir` returns, so `empty` is enumerated before
`gce-pd`). -/
def duplicateNameScanEnv : ScanEnv :=
  ⟨fun p =>
    if p = "root" then .ok [⟨"p", true⟩]
    else if p = "root/p/volumes" then .ok [⟨"empty", true⟩, ⟨"gce-pd", true⟩]
    else if p = "root/p/volumes/empty" then .ok [⟨"x", true⟩]
    else if p = "root/p/volumes/gce-pd" then .ok [⟨"x", true⟩]
    else .error "no such file or directory"⟩

/-- C10: on the tree where name `x` exists under both `empty` and `gce-pd`
for pod `p`, GetCurrentVolumes returns exactly one entry, keyed `p/x`, and it
is the Cleaner built for the later-enumerated kind `gce-pd` — the map
assignment overwrote the `empty` Cleaner, so the on-disk `empty` volume
receives no Cleaner in the result. -/
theorem duplicate_name_overwrite :
    GetCurrentVolumes duplicateNameScanEnv "root" =
      [("p/x", .gcePD ⟨"x", "p", "root", "", "", "", false⟩)] := by
  decide

end KubeVolume
